import Mathlib

/-!
Shallow embedding of `src/inventory_system.py`: an in-memory stock ledger
(a Python dict from item name to numeric quantity) with add/remove/query,
a low-stock scan, and JSON-file load/save.

Modelling conventions:
* Python runtime values passed as arguments are `PyVal` (int, float, bool,
  str, None).  `isinstance(x, (int, float))` is true for bools as well,
  since Python's `bool` is a subclass of `int`; `isNumV` reflects that.
* Numeric quantities stored in the ledger are `PyNum` (int, float, bool);
  Python floats are modelled as rationals (no claim depends on rounding).
  Python arithmetic on numbers: any float operand gives a float, otherwise
  the result is an int (`True + 0 == 1`, an int, not a bool).
* The ledger (`stock_data`) is an insertion-ordered association list,
  mirroring the Python dict: update-in-place keeps position, inserting a
  new key appends, deletion removes.
* The file system is a map from path to an already-read-and-parsed
  outcome (`FileData`), abstracting `open`+`json.loads`; `json.dumps`
  followed by `json.loads` is the identity on the values involved
  (str keys, int/float/bool values), so `save` writes the parsed form.
* `print`ed error messages are returned as `Option String`; Python's
  textual `repr` of floats is approximated by the rational's `toString`
  (no claim depends on float formatting).
-/

/-- Python numeric values as stored in the ledger. -/
inductive PyNum where
  | i (n : Int)
  | f (q : ℚ)
  | b (v : Bool)
deriving Repr, DecidableEq

/-- The numeric value, with `True == 1` and `False == 0` as in Python. -/
def PyNum.toRat : PyNum → ℚ
  | .i n => (n : ℚ)
  | .f q => q
  | .b v => if v then 1 else 0

/-- Integer value of a non-float `PyNum` (unused on floats). -/
def PyNum.toInt : PyNum → Int
  | .i n => n
  | .f _ => 0
  | .b v => if v then 1 else 0

/-- Python `+` on numbers: float if either operand is a float, else int. -/
def pyAdd (x y : PyNum) : PyNum :=
  match x, y with
  | .f q, y => .f (q + y.toRat)
  | x, .f q => .f (x.toRat + q)
  | x, y => .i (x.toInt + y.toInt)

/-- Python `-` on numbers: float if either operand is a float, else int. -/
def pySub (x y : PyNum) : PyNum :=
  match x, y with
  | .f q, y => .f (q - y.toRat)
  | x, .f q => .f (x.toRat - q)
  | x, y => .i (x.toInt - y.toInt)

/-- Python runtime values that the operations receive as arguments. -/
inductive PyVal where
  | int (n : Int)
  | float (q : ℚ)
  | bool (b : Bool)
  | str (s : String)
  | none
deriving Repr, DecidableEq

/-- `isinstance(x, (int, float))`; true for bools (subclass of int). -/
def isNumV : PyVal → Bool
  | .int _ => true
  | .float _ => true
  | .bool _ => true
  | _ => false

/-- `isinstance(x, str)`. -/
def isStrV : PyVal → Bool
  | .str _ => true
  | _ => false

/-- The numeric content of a numeric `PyVal` (junk on non-numeric ones;
only used after an `isNumV` check, as in the source). -/
def toNum : PyVal → PyNum
  | .int n => .i n
  | .float q => .f q
  | .bool b => .b b
  | _ => .i 0

/-- The string content of a string `PyVal` (junk on non-strings;
only used after an `isStrV` check, as in the source). -/
def strVal : PyVal → String
  | .str s => s
  | _ => ""

/-- `type(x).__name__`. -/
def typeName : PyVal → String
  | .int _ => "int"
  | .float _ => "float"
  | .bool _ => "bool"
  | .str _ => "str"
  | .none => "NoneType"

/-- `str(x)` / f-string interpolation (float formatting approximated). -/
def pyStr : PyVal → String
  | .int n => toString n
  | .float q => toString q
  | .bool b => if b then "True" else "False"
  | .str s => s
  | .none => "None"

/-- `str` of a stored numeric value (float formatting approximated). -/
def numStr : PyNum → String
  | .i n => toString n
  | .f q => toString q
  | .b v => if v then "True" else "False"

/-- `s.strip()`: drop whitespace from both ends (ASCII whitespace; no
claim depends on the exotic Unicode space characters Python also strips). -/
def pyStrip (s : String) : String :=
  String.mk
    (((s.data.dropWhile Char.isWhitespace).reverse.dropWhile Char.isWhitespace).reverse)

/-- `not item or item.strip() == ""`: empty or all-whitespace string. -/
def strEmpty (s : String) : Bool :=
  s == "" || pyStrip s == ""

/-- The ledger `stock_data`: an insertion-ordered dict from item name to
numeric quantity. -/
abbrev Ledger := List (String × PyNum)

/-- `d[k]` / `d.get(k)`. -/
def dictGet : Ledger → String → Option PyNum
  | [], _ => Option.none
  | p :: rest, k => if p.1 == k then Option.some p.2 else dictGet rest k

/-- `d.get(k, v0)`. -/
def dictGetD (d : Ledger) (k : String) (v0 : PyNum) : PyNum :=
  (dictGet d k).getD v0

/-- `k in d`. -/
def dictMem (d : Ledger) (k : String) : Bool :=
  (dictGet d k).isSome

/-- `d[k] = v`: update in place if present (keeping position), else
append at the end, as Python dicts do. -/
def dictSet : Ledger → String → PyNum → Ledger
  | [], k, v => [(k, v)]
  | p :: rest, k, v => if p.1 == k then (k, v) :: rest else p :: dictSet rest k v

/-- `del d[k]`. -/
def dictDel : Ledger → String → Ledger
  | [], _ => []
  | p :: rest, k => if p.1 == k then rest else p :: dictDel rest k

/-- Result of `add_item`: return value, the ledger after the call, the
`logs` list after the call, and the error message printed (if any). -/
structure AddResult where
  ok : Bool
  stock : Ledger
  logs : List String
  msg : Option String
deriving Repr, DecidableEq

/-- `add_item(item, qty, logs)`; `now` stands for `datetime.now()`. -/
def add_item (stock : Ledger) (item qty : PyVal) (logs : List String)
    (now : String) : AddResult :=
  if !(isStrV item) then
    ⟨false, stock, logs,
      Option.some ("Error: Item name must be a string, got " ++ typeName item)⟩
  else if !(isNumV qty) then
    ⟨false, stock, logs,
      Option.some ("Error: Quantity must be a number, got " ++ typeName qty)⟩
  else if strEmpty (strVal item) then
    ⟨false, stock, logs, Option.some "Error: Item name cannot be empty"⟩
  else if (toNum qty).toRat < 0 then
    ⟨false, stock, logs,
      Option.some ("Error: Cannot add negative quantity (" ++ pyStr qty ++
        ") for item '" ++ strVal item ++ "'")⟩
  else
    ⟨true,
      dictSet stock (strVal item)
        (pyAdd (dictGetD stock (strVal item) (PyNum.i 0)) (toNum qty)),
      logs ++ [now ++ ": Added " ++ pyStr qty ++ " of " ++ strVal item],
      Option.none⟩

/-- Result of `remove_item` / `load_data`: return value, ledger after the
call, error message printed (if any). -/
structure MutResult where
  ok : Bool
  stock : Ledger
  msg : Option String
deriving Repr, DecidableEq

/-- `remove_item(item, qty)`. -/
def remove_item (stock : Ledger) (item qty : PyVal) : MutResult :=
  if !(isStrV item) then
    ⟨false, stock,
      Option.some ("Error: Item name must be a string, got " ++ typeName item)⟩
  else if !(isNumV qty) then
    ⟨false, stock,
      Option.some ("Error: Quantity must be a number, got " ++ typeName qty)⟩
  else if strEmpty (strVal item) then
    ⟨false, stock, Option.some "Error: Item name cannot be empty"⟩
  else if (toNum qty).toRat ≤ 0 then
    ⟨false, stock,
      Option.some ("Error: Quantity to remove must be positive, got " ++ pyStr qty)⟩
  else if !(dictMem stock (strVal item)) then
    ⟨false, stock,
      Option.some ("Error: Item '" ++ strVal item ++ "' not found in inventory")⟩
  else if (dictGetD stock (strVal item) (PyNum.i 0)).toRat < (toNum qty).toRat then
    ⟨false, stock,
      Option.some ("Error: Cannot remove " ++ pyStr qty ++ " of '" ++ strVal item ++
        "', only " ++ numStr (dictGetD stock (strVal item) (PyNum.i 0)) ++ " available")⟩
  else
    if (pySub (dictGetD stock (strVal item) (PyNum.i 0)) (toNum qty)).toRat ≤ 0 then
      ⟨true,
        dictDel
          (dictSet stock (strVal item)
            (pySub (dictGetD stock (strVal item) (PyNum.i 0)) (toNum qty)))
          (strVal item),
        Option.none⟩
    else
      ⟨true,
        dictSet stock (strVal item)
          (pySub (dictGetD stock (strVal item) (PyNum.i 0)) (toNum qty)),
        Option.none⟩

/-- Result of `get_qty`: the ledger after the call (never mutated), the
returned quantity, the error message printed (if any). -/
structure QtyResult where
  stock : Ledger
  result : PyNum
  msg : Option String
deriving Repr, DecidableEq

/-- `get_qty(item)`. -/
def get_qty (stock : Ledger) (item : PyVal) : QtyResult :=
  if !(isStrV item) then
    ⟨stock, PyNum.i 0,
      Option.some ("Error: Item name must be a string, got " ++ typeName item)⟩
  else if strEmpty (strVal item) then
    ⟨stock, PyNum.i 0, Option.some "Error: Item name cannot be empty"⟩
  else
    ⟨stock, dictGetD stock (strVal item) (PyNum.i 0), Option.none⟩

/-- Result of `check_low_items`: the ledger after the call (never
mutated), the returned list, the error message printed (if any). -/
structure LowResult where
  stock : Ledger
  result : List String
  msg : Option String
deriving Repr, DecidableEq

/-- `check_low_items(threshold)`: items whose quantity is strictly below
the threshold, in ledger iteration order. -/
def check_low_items (stock : Ledger) (threshold : PyVal) : LowResult :=
  if !(isNumV threshold) then
    ⟨stock, [],
      Option.some ("Error: Threshold must be a number, got " ++ typeName threshold)⟩
  else if (toNum threshold).toRat < 0 then
    ⟨stock, [],
      Option.some ("Error: Threshold must be non-negative, got " ++ pyStr threshold)⟩
  else
    ⟨stock,
      (stock.filter (fun p => decide (p.2.toRat < (toNum threshold).toRat))).map Prod.fst,
      Option.none⟩

/-- A Python object parsed from JSON by `json.loads` (object keys are
always strings after parsing). -/
inductive PyData where
  | dict (kvs : List (String × PyData))
  | list (xs : List PyData)
  | str (s : String)
  | int (n : Int)
  | float (q : ℚ)
  | bool (b : Bool)
  | null
deriving Repr

/-- `isinstance(value, (int, float))` on a parsed JSON value. -/
def isNumData : PyData → Bool
  | .int _ => true
  | .float _ => true
  | .bool _ => true
  | _ => false

/-- Numeric content of a numeric `PyData` (junk on non-numeric ones;
only used on values `_validate_json_data` accepted). -/
def dataToNum : PyData → PyNum
  | .int n => .i n
  | .float q => .f q
  | .bool b => .b b
  | _ => .i 0

/-- A stored `PyNum` serialized by `json.dumps` and re-read. -/
def numToData : PyNum → PyData
  | .i n => .int n
  | .f q => .float q
  | .b v => .bool v

/-- `repr` used in validation error messages (approximated). -/
def dataStr : PyData → String
  | .int n => toString n
  | .float q => toString q
  | .bool b => if b then "True" else "False"
  | .str s => s
  | _ => "<object>"

/-- The entry loop of `_validate_json_data`: each value must be numeric
and non-negative; the key `isinstance(key, str)` check cannot fail here
because `json.loads` object keys are always strings. -/
def validateItems : List (String × PyData) → Bool × String
  | [] => (true, "")
  | (k, v) :: rest =>
      if !(isNumData v) || (dataToNum v).toRat < 0 then
        (false, "Error: Invalid quantity '" ++ dataStr v ++ "' for item '" ++ k ++
          "' - must be non-negative number")
      else validateItems rest

/-- `_validate_json_data(data)`. -/
def validate_json_data (data : PyData) : Bool × String :=
  match data with
  | .dict kvs => validateItems kvs
  | _ => (false, "Error: Invalid data format in file - expected dictionary")

/-- `_validate_load_data_inputs(file)`. -/
def validate_load_data_inputs (file : PyVal) : Bool × String :=
  if !(isStrV file) then
    (false, "Error: File path must be a string, got " ++ typeName file)
  else if strEmpty (strVal file) then
    (false, "Error: File path cannot be empty")
  else (true, "")

/-- Outcome of opening, reading and `json.loads`-parsing a path. -/
inductive FileData where
  | missing
  | permDenied
  | ioError (e : String)
  | badJson (e : String)
  | parsed (d : PyData)
deriving Repr

/-- Outcome of opening a path for writing. -/
inductive WriteErr where
  | permDenied
  | ioError (e : String)
deriving Repr, DecidableEq

/-- The file system as `load_data`/`save_data` see it. -/
structure FS where
  read : String → FileData
  writeErr : String → Option WriteErr

/-- The ledger installed by a successful load: the parsed dict itself. -/
def dataToLedger : PyData → Ledger
  | .dict kvs => kvs.map (fun p => (p.1, dataToNum p.2))
  | _ => []

/-- `load_data(file)`. -/
def load_data (stock : Ledger) (fs : FS) (file : PyVal) : MutResult :=
  match validate_load_data_inputs file with
  | (false, m) => ⟨false, stock, Option.some m⟩
  | _ =>
    match fs.read (strVal file) with
    | .missing =>
        ⟨false, stock, Option.some ("Error: File '" ++ strVal file ++ "' not found")⟩
    | .badJson e =>
        ⟨false, stock,
          Option.some ("Error: Invalid JSON in file '" ++ strVal file ++ "': " ++ e)⟩
    | .permDenied =>
        ⟨false, stock,
          Option.some ("Error: Permission denied accessing file '" ++ strVal file ++ "'")⟩
    | .ioError e =>
        ⟨false, stock,
          Option.some ("Error loading data from '" ++ strVal file ++ "': " ++ e)⟩
    | .parsed d =>
        match validate_json_data d with
        | (true, _) => ⟨true, dataToLedger d, Option.none⟩
        | (false, m) => ⟨false, stock, Option.some m⟩

/-- `json.dumps(stock_data)` as re-read by `json.loads`. -/
def serializeLedger (stock : Ledger) : PyData :=
  .dict (stock.map (fun p => (p.1, numToData p.2)))

/-- Result of `save_data`: return value, the file system after the call,
the error message printed (if any). -/
structure SaveResult where
  ok : Bool
  fs : FS
  msg : Option String

/-- `save_data(file)`. -/
def save_data (stock : Ledger) (fs : FS) (file : PyVal) : SaveResult :=
  if !(isStrV file) then
    ⟨false, fs, Option.some ("Error: File path must be a string, got " ++ typeName file)⟩
  else if strEmpty (strVal file) then
    ⟨false, fs, Option.some "Error: File path cannot be empty"⟩
  else
    match fs.writeErr (strVal file) with
    | Option.some .permDenied =>
        ⟨false, fs,
          Option.some ("Error: Permission denied writing to file '" ++ strVal file ++ "'")⟩
    | Option.some (.ioError e) =>
        ⟨false, fs,
          Option.some ("Error saving data to '" ++ strVal file ++ "': " ++ e)⟩
    | Option.none =>
        ⟨true,
          { fs with
            read := fun p =>
              if p == strVal file then .parsed (serializeLedger stock) else fs.read p },
          Option.none⟩

/-- The whole observable program state: the global `stock_data` and the
backing file system. -/
structure SysState where
  stock : Ledger
  fs : FS

/-- One call of the public API. -/
inductive Op where
  | add (item qty : PyVal) (now : String)
  | remove (item qty : PyVal)
  | load (file : PyVal)
  | save (file : PyVal)
  | query (item : PyVal)
  | lowStock (threshold : PyVal)

/-- Execute one call, keeping only the state (results discarded). -/
def step (s : SysState) : Op → SysState
  | .add item qty now => { s with stock := (add_item s.stock item qty [] now).stock }
  | .remove item qty => { s with stock := (remove_item s.stock item qty).stock }
  | .load file => { s with stock := (load_data s.stock s.fs file).stock }
  | .save file => { s with fs := (save_data s.stock s.fs file).fs }
  | .query item => { s with stock := (get_qty s.stock item).stock }
  | .lowStock threshold => { s with stock := (check_low_items s.stock threshold).stock }

/-- Execute a sequence of calls from a state. -/
def run (s : SysState) : List Op → SysState
  | [] => s
  | op :: ops => run (step s op) ops

/-- Every quantity in the ledger is non-negative. -/
def LedgerNN (stock : Ledger) : Prop :=
  ∀ p ∈ stock, 0 ≤ p.2.toRat

instance (stock : Ledger) : Decidable (LedgerNN stock) :=
  List.decidableBAll _ stock

/-- A file system with no readable files and all paths writable, used for
concrete executions. -/
def fsEmpty : FS := ⟨fun _ => FileData.missing, fun _ => Option.none⟩

/-! ### Arithmetic and dictionary lemmas -/

theorem toInt_cast_toRat (x : PyNum) (h : ∀ q, x ≠ .f q) :
    ((x.toInt : Int) : ℚ) = x.toRat := by
  cases x with
  | i n => rfl
  | f q => exact absurd rfl (h q)
  | b v => cases v <;> simp [PyNum.toInt, PyNum.toRat]

theorem pyAdd_toRat (x y : PyNum) : (pyAdd x y).toRat = x.toRat + y.toRat := by
  cases x <;> cases y <;>
    simp [pyAdd, PyNum.toRat, PyNum.toInt] <;> split_ifs <;> push_cast <;> ring

theorem pySub_toRat (x y : PyNum) : (pySub x y).toRat = x.toRat - y.toRat := by
  cases x <;> cases y <;>
    simp [pySub, PyNum.toRat, PyNum.toInt] <;> split_ifs <;> push_cast <;> ring

theorem dictGet_mem {d : Ledger} {k : String} {v : PyNum}
    (h : dictGet d k = Option.some v) : (k, v) ∈ d := by
  induction d with
  | nil => simp [dictGet] at h
  | cons p rest ih =>
      by_cases hk : p.1 = k
      · simp [dictGet, hk] at h
        subst h; subst hk
        exact List.mem_cons_self _ _
      · simp [dictGet, hk] at h
        exact List.mem_cons_of_mem _ (ih h)

theorem mem_dictSet {d : Ledger} {k : String} {v : PyNum} {p : String × PyNum}
    (h : p ∈ dictSet d k v) : p = (k, v) ∨ p ∈ d := by
  induction d with
  | nil => simpa [dictSet] using h
  | cons q rest ih =>
      by_cases hk : q.1 = k
      · simp [dictSet, hk] at h
        rcases h with h | h
        · exact Or.inl h
        · exact Or.inr (List.mem_cons_of_mem _ h)
      · simp [dictSet, hk] at h
        rcases h with h | h
        · exact Or.inr (by simp [h])
        · rcases ih h with h' | h'
          · exact Or.inl h'
          · exact Or.inr (List.mem_cons_of_mem _ h')

theorem mem_dictDel {d : Ledger} {k : String} {p : String × PyNum}
    (h : p ∈ dictDel d k) : p ∈ d := by
  induction d with
  | nil => simpa [dictDel] using h
  | cons q rest ih =>
      by_cases hk : q.1 = k
      · simp [dictDel, hk] at h
        exact List.mem_cons_of_mem _ h
      · simp [dictDel, hk] at h
        rcases h with h | h
        · simp [h]
        · exact List.mem_cons_of_mem _ (ih h)

theorem dictGet_dictSet_self (d : Ledger) (k : String) (v : PyNum) :
    dictGet (dictSet d k v) k = Option.some v := by
  induction d with
  | nil => simp [dictSet, dictGet]
  | cons q rest ih =>
      by_cases hk : q.1 = k
      · simp [dictSet, dictGet, hk]
      · simp [dictSet, dictGet, hk, ih]

theorem dictGet_dictSet_ne (d : Ledger) (k k' : String) (v : PyNum) (h : k' ≠ k) :
    dictGet (dictSet d k v) k' = dictGet d k' := by
  have hne : ¬(k = k') := fun e => h e.symm
  induction d with
  | nil => simp [dictSet, dictGet, hne]
  | cons q rest ih =>
      by_cases hq : q.1 = k
      · subst hq
        simp [dictSet, dictGet, hne]
      · simp [dictSet, dictGet, hq, ih]


theorem nn_dictGetD {d : Ledger} (h : LedgerNN d) (k : String) :
    0 ≤ (dictGetD d k (PyNum.i 0)).toRat := by
  unfold dictGetD
  cases hg : dictGet d k with
  | none => simp [PyNum.toRat]
  | some v => simpa using h _ (dictGet_mem hg)

theorem LedgerNN_dictSet {d : Ledger} {k : String} {v : PyNum}
    (hd : LedgerNN d) (hv : 0 ≤ v.toRat) : LedgerNN (dictSet d k v) := by
  intro p hp
  rcases mem_dictSet hp with h | h
  · subst h; exact hv
  · exact hd _ h

theorem LedgerNN_dictDel {d : Ledger} {k : String} (hd : LedgerNN d) :
    LedgerNN (dictDel d k) :=
  fun p hp => hd _ (mem_dictDel hp)

theorem add_item_nn {stock : Ledger} (item qty : PyVal) (logs : List String)
    (now : String) (h : LedgerNN stock) :
    LedgerNN (add_item stock item qty logs now).stock := by
  unfold add_item
  split_ifs with h1 h2 h3 h4
  · exact h
  · exact h
  · exact h
  · exact h
  · refine LedgerNN_dictSet h ?_
    rw [pyAdd_toRat]
    have h5 := nn_dictGetD h (strVal item)
    push_neg at h4
    linarith

theorem remove_item_nn {stock : Ledger} (item qty : PyVal)
    (h : LedgerNN stock) : LedgerNN (remove_item stock item qty).stock := by
  unfold remove_item
  split_ifs with h1 h2 h3 h4 h5 h6 h7
  · exact h
  · exact h
  · exact h
  · exact h
  · exact h
  · exact h
  · exact LedgerNN_dictDel (LedgerNN_dictSet h
      (by rw [pySub_toRat]; push_neg at h6; linarith))
  · exact LedgerNN_dictSet h
      (by rw [pySub_toRat]; push_neg at h6; linarith)

theorem validateItems_true {kvs : List (String × PyData)}
    (h : (validateItems kvs).1 = true) :
    ∀ p ∈ kvs, isNumData p.2 = true ∧ 0 ≤ (dataToNum p.2).toRat := by
  induction kvs with
  | nil => intro p hp; simp at hp
  | cons q rest ih =>
      obtain ⟨k, v⟩ := q
      simp only [validateItems] at h
      split_ifs at h with hq
      · simp only [Bool.or_eq_true, Bool.not_eq_true', decide_eq_true_eq] at hq
        push_neg at hq
        intro p hp
        rcases List.mem_cons.mp hp with h' | h'
        · subst h'
          exact ⟨by simpa using hq.1, hq.2⟩
        · exact ih h _ h'

theorem load_data_nn {stock : Ledger} (fs : FS) (file : PyVal)
    (h : LedgerNN stock) : LedgerNN (load_data stock fs file).stock := by
  unfold load_data
  split
  · exact h
  · split
    · exact h
    · exact h
    · exact h
    · exact h
    · rename_i d hread
      split
      · rename_i snd heq
        cases d with
        | dict kvs =>
            have hval : (validateItems kvs).1 = true := by
              have := congrArg Prod.fst heq
              simpa [validate_json_data] using this
            intro p hp
            simp only [dataToLedger, List.mem_map] at hp
            obtain ⟨q, hq, rfl⟩ := hp
            exact (validateItems_true hval q hq).2
        | list xs => simp [validate_json_data] at heq
        | str s => simp [validate_json_data] at heq
        | int n => simp [validate_json_data] at heq
        | float q => simp [validate_json_data] at heq
        | bool b => simp [validate_json_data] at heq
        | null => simp [validate_json_data] at heq
      · exact h

theorem get_qty_stock_eq (stock : Ledger) (item : PyVal) :
    (get_qty stock item).stock = stock := by
  unfold get_qty
  split_ifs <;> rfl

theorem check_low_items_stock_eq (stock : Ledger) (threshold : PyVal) :
    (check_low_items stock threshold).stock = stock := by
  unfold check_low_items
  split_ifs <;> rfl

theorem step_nn {s : SysState} (op : Op) (h : LedgerNN s.stock) :
    LedgerNN (step s op).stock := by
  cases op with
  | add item qty now => exact add_item_nn item qty [] now h
  | remove item qty => exact remove_item_nn item qty h
  | load file => exact load_data_nn s.fs file h
  | save file => exact h
  | query item => simpa [step, get_qty_stock_eq] using h
  | lowStock threshold => simpa [step, check_low_items_stock_eq] using h

theorem run_nn {s : SysState} (ops : List Op) (h : LedgerNN s.stock) :
    LedgerNN (run s ops).stock := by
  induction ops generalizing s with
  | nil => exact h
  | cons op rest ih => exact ih (step_nn op h)

/-- A Python numeric value as an argument. -/
def numToVal : PyNum → PyVal
  | .i n => .int n
  | .f q => .float q
  | .b v => .bool v

theorem toNum_numToVal (q : PyNum) : toNum (numToVal q) = q := by
  cases q <;> rfl

theorem isNumV_numToVal (q : PyNum) : isNumV (numToVal q) = true := by
  cases q <;> rfl

theorem dataToNum_numToData (v : PyNum) : dataToNum (numToData v) = v := by
  cases v <;> rfl

theorem isNumData_numToData (v : PyNum) : isNumData (numToData v) = true := by
  cases v <;> rfl

theorem dataToLedger_serializeLedger (stock : Ledger) :
    dataToLedger (serializeLedger stock) = stock := by
  induction stock with
  | nil => rfl
  | cons p rest ih =>
      simp only [serializeLedger, dataToLedger, List.map_cons] at ih ⊢
      simp [dataToNum_numToData, ih]

theorem dictGet_dictDel_ne (d : Ledger) (k k' : String) (h : k' ≠ k) :
    dictGet (dictDel d k) k' = dictGet d k' := by
  induction d with
  | nil => rfl
  | cons q rest ih =>
      have hne : ¬(k = k') := fun e => h e.symm
      by_cases hq : q.1 = k
      · simp [dictDel, dictGet, hq, hne]
      · by_cases hq' : q.1 = k'
        · simp [dictDel, dictGet, hq, hq', h]
        · simp [dictDel, dictGet, hq, hq', ih]

theorem dictGet_notMem (d : Ledger) (k : String) (h : k ∉ d.map Prod.fst) :
    dictGet d k = Option.none := by
  induction d with
  | nil => rfl
  | cons q rest ih =>
      simp only [List.map_cons, List.mem_cons] at h
      push_neg at h
      have : ¬(q.1 = k) := fun e => h.1 e.symm
      simp [dictGet, this, ih h.2]

theorem dictGet_dictDel_self (d : Ledger) (k : String)
    (h : (d.map Prod.fst).Nodup) : dictGet (dictDel d k) k = Option.none := by
  induction d with
  | nil => rfl
  | cons q rest ih =>
      simp only [List.map_cons, List.nodup_cons] at h
      by_cases hq : q.1 = k
      · simpa [dictDel, hq] using dictGet_notMem rest k (hq ▸ h.1)
      · simp [dictDel, dictGet, hq, ih h.2]

theorem dictGet_dictDel_dictSet (d : Ledger) (k : String) (v : PyNum) :
    dictGet (dictDel (dictSet d k v) k) k = dictGet (dictDel d k) k := by
  induction d with
  | nil => simp [dictSet, dictDel, dictGet]
  | cons q rest ih =>
      by_cases hq : q.1 = k
      · simp [dictSet, dictDel, hq]
      · simp [dictSet, dictDel, dictGet, hq, ih]

theorem dictSet_absent (d : Ledger) (k : String) (v : PyNum)
    (h : dictGet d k = Option.none) : dictSet d k v = d ++ [(k, v)] := by
  induction d with
  | nil => rfl
  | cons q rest ih =>
      by_cases hq : q.1 = k
      · simp [dictGet, hq] at h
      · simp only [dictGet, hq] at h
        simp [dictSet, hq, ih (by simpa [hq] using h)]

theorem validateItems_true_iff (kvs : List (String × PyData)) :
    (validateItems kvs).1 = true ↔
      ∀ p ∈ kvs, isNumData p.2 = true ∧ 0 ≤ (dataToNum p.2).toRat := by
  constructor
  · exact validateItems_true
  · intro h
    induction kvs with
    | nil => rfl
    | cons q rest ih =>
        have hq := h q (List.mem_cons_self _ _)
        have hcond : (!(isNumData q.2) || decide ((dataToNum q.2).toRat < 0)) = false := by
          simp [hq.1, not_lt.mpr hq.2]
        simp only [validateItems]
        rw [if_neg (by simp [hcond])]
        exact ih (fun p hp => h p (List.mem_cons_of_mem _ hp))

theorem pyAdd_bool_true (x : PyNum) : pyAdd x (PyNum.b true) = pyAdd x (PyNum.i 1) := by
  cases x <;> simp [pyAdd, PyNum.toRat, PyNum.toInt]

theorem pySub_bool_true (x : PyNum) : pySub x (PyNum.b true) = pySub x (PyNum.i 1) := by
  cases x <;> simp [pySub, PyNum.toRat, PyNum.toInt]

/-! ### Claim theorems -/

/-- C1 counterexample: the claimed strict-positivity invariant is false.
From the empty Ledger, the single operation `add("a", 0)` succeeds and
leaves the key `"a"` present with quantity `0`, which is not `> 0`. -/
theorem c1_strict_positivity_counterexample :
    ("a", PyNum.i 0) ∈ (run ⟨[], fsEmpty⟩ [Op.add (PyVal.str "a") (PyVal.int 0) "t"]).stock
      ∧ ¬(0 < (PyNum.i 0).toRat) := by
  constructor
  · have h : (run ⟨[], fsEmpty⟩ [Op.add (PyVal.str "a") (PyVal.int 0) "t"]).stock
        = [("a", PyNum.i 0)] := rfl
    rw [h]
    exact List.mem_singleton.mpr rfl
  · simp [PyNum.toRat]

/-- C1 (amended): for every sequence of add/remove/load/save/query
operations starting from the empty Ledger (over any file system), every
key present in the Ledger mapping has a non-negative quantity at every
observable point; quantity `0` is reachable (via `add` of `0` to an
absent item, or loading a file holding a zero value), so the invariant is
`≥ 0`, not `> 0`. -/
theorem c1_ledger_nonneg (fs : FS) (ops : List Op) :
    LedgerNN (run ⟨[], fs⟩ ops).stock :=
  run_nn ops (by intro p hp; simp at hp)

/-- C9: `get_qty` and `check_low_items` never mutate the Ledger: the
ledger after either call is the ledger before it, for every state and
every argument. -/
theorem c9_queries_read_only (stock : Ledger) (item threshold : PyVal) :
    (get_qty stock item).stock = stock
      ∧ (check_low_items stock threshold).stock = stock :=
  ⟨get_qty_stock_eq stock item, check_low_items_stock_eq stock threshold⟩

/-- C7: `check_low_items(threshold)` returns the empty list and reports
an error when `threshold` is not numeric or is negative; otherwise it
returns (with no error) exactly the items whose stored quantity is
strictly below the threshold, in ledger order; on
`{"apple": 7, "banana": 2}` with threshold `5` it returns `["banana"]`. -/
theorem c7_check_low_items_spec (stock : Ledger) (threshold : PyVal) :
    ((check_low_items stock threshold).result =
      if isNumV threshold = true ∧ 0 ≤ (toNum threshold).toRat then
        (stock.filter (fun p => decide (p.2.toRat < (toNum threshold).toRat))).map Prod.fst
      else [])
    ∧ ((check_low_items stock threshold).msg = Option.none ↔
        (isNumV threshold = true ∧ 0 ≤ (toNum threshold).toRat))
    ∧ (check_low_items [("apple", PyNum.i 7), ("banana", PyNum.i 2)]
        (PyVal.int 5)).result = ["banana"] := by
  refine ⟨?_, ?_, by decide⟩
  · unfold check_low_items
    by_cases hn : isNumV threshold = true
    · by_cases hr : 0 ≤ (toNum threshold).toRat
      · simp [hn, hr, not_lt.mpr hr]
      · simp [hn, hr, not_le.mp hr]
    · simp only [Bool.not_eq_true] at hn
      simp [hn]
  · unfold check_low_items
    by_cases hn : isNumV threshold = true
    · by_cases hr : 0 ≤ (toNum threshold).toRat
      · simp [hn, hr, not_lt.mpr hr]
      · simp [hn, hr, not_le.mp hr]
    · simp only [Bool.not_eq_true] at hn
      simp [hn]

/-- C8: `get_qty` returns `0` when the argument is not a string, and when
it is an empty or all-whitespace string, and when it is a valid name
absent from the Ledger — so validation failure and absence are
observationally identical in the return value; for a valid name present
in the Ledger it returns the stored quantity. -/
theorem c8_get_qty_spec (stock : Ledger) (item : PyVal) (s : String) (v : PyNum) :
    (isStrV item = false → (get_qty stock item).result = PyNum.i 0)
    ∧ (strEmpty s = true → (get_qty stock (PyVal.str s)).result = PyNum.i 0)
    ∧ (strEmpty s = false → dictGet stock s = Option.none →
        (get_qty stock (PyVal.str s)).result = PyNum.i 0)
    ∧ (strEmpty s = false → dictGet stock s = Option.some v →
        (get_qty stock (PyVal.str s)).result = v) := by
  refine ⟨fun h => ?_, fun h => ?_, fun h h' => ?_, fun h h' => ?_⟩
  · simp [get_qty, h]
  · simp [get_qty, isStrV, strVal, h]
  · simp [get_qty, isStrV, strVal, h, dictGetD, h']
  · simp [get_qty, isStrV, strVal, h, dictGetD, h']

/-- C8 witness: concrete instances of every case of `c8_get_qty_spec` on
the Ledger `{"apple": 7}`. -/
theorem c8_get_qty_spec_witness :
    (get_qty [("apple", PyNum.i 7)] (PyVal.int 3)).result = PyNum.i 0
    ∧ (get_qty [("apple", PyNum.i 7)] (PyVal.str " ")).result = PyNum.i 0
    ∧ (get_qty [("apple", PyNum.i 7)] (PyVal.str "pear")).result = PyNum.i 0
    ∧ (get_qty [("apple", PyNum.i 7)] (PyVal.str "apple")).result = PyNum.i 7 :=
  ⟨(c8_get_qty_spec [("apple", PyNum.i 7)] (PyVal.int 3) "x" (PyNum.i 0)).1 (by decide),
   (c8_get_qty_spec [("apple", PyNum.i 7)] (PyVal.str " ") " " (PyNum.i 0)).2.1 (by decide),
   (c8_get_qty_spec [("apple", PyNum.i 7)] (PyVal.str "pear") "pear" (PyNum.i 0)).2.2.1
     (by decide) (by decide),
   (c8_get_qty_spec [("apple", PyNum.i 7)] (PyVal.str "apple") "apple" (PyNum.i 7)).2.2.2
     (by decide) (by decide)⟩

/-- C5 counterexample: `add("a", 0)` on the empty Ledger succeeds but the
observable Ledger state is NOT identical to the state before the call:
the key `"a"` is inserted with stored quantity `0`, and `check_low_items`
observes it. -/
theorem c5_add_zero_counterexample :
    (add_item [] (PyVal.str "a") (PyVal.int 0) [] "t").ok = true
    ∧ (add_item [] (PyVal.str "a") (PyVal.int 0) [] "t").stock ≠ []
    ∧ (check_low_items (add_item [] (PyVal.str "a") (PyVal.int 0) [] "t").stock
        (PyVal.int 5)).result = ["a"]
    ∧ (check_low_items ([] : Ledger) (PyVal.int 5)).result = [] := by
  refine ⟨by decide, by decide, by decide, by decide⟩

/-- C5 (amended): for every string item that is non-empty after
stripping, `add(item, 0)` succeeds and is a no-op on every stored VALUE:
`get_qty` reports the same quantity for every key before and after.  But
the Ledger state is identical only up to that observation: when the item
was absent, the call inserts the key with stored quantity `0`. -/
theorem c5_add_zero_value_noop (stock : Ledger) (s : String)
    (logs : List String) (now : String) (h : strEmpty s = false) :
    (add_item stock (PyVal.str s) (PyVal.int 0) logs now).ok = true
    ∧ (∀ k : String,
        ((get_qty (add_item stock (PyVal.str s) (PyVal.int 0) logs now).stock
          (PyVal.str k)).result).toRat = ((get_qty stock (PyVal.str k)).result).toRat)
    ∧ (dictGet stock s = Option.none →
        (add_item stock (PyVal.str s) (PyVal.int 0) logs now).stock
          = stock ++ [(s, PyNum.i 0)]) := by
  have hstock : (add_item stock (PyVal.str s) (PyVal.int 0) logs now).stock
      = dictSet stock s (pyAdd (dictGetD stock s (PyNum.i 0)) (PyNum.i 0)) := by
    simp [add_item, isStrV, isNumV, strVal, h, toNum, PyNum.toRat]
  refine ⟨by simp [add_item, isStrV, isNumV, strVal, h, toNum, PyNum.toRat],
    fun k => ?_, fun habs => ?_⟩
  · by_cases hk : strEmpty k = true
    · simp [get_qty, isStrV, strVal, hk]
    · simp only [Bool.not_eq_true] at hk
      rw [hstock]
      by_cases hks : k = s
      · subst hks
        simp only [get_qty, isStrV, strVal, hk, Bool.not_true, Bool.false_eq_true, if_false,
          dictGetD, dictGet_dictSet_self]
        cases hg : dictGet stock k with
        | none => simp [dictGetD, hg, pyAdd, PyNum.toInt, PyNum.toRat]
        | some v =>
            simp only [dictGetD, hg, Option.getD_some]
            rw [pyAdd_toRat]
            simp [PyNum.toRat]
      · simp [get_qty, isStrV, strVal, hk, dictGetD, dictGet_dictSet_ne stock s k _ hks]
  · rw [hstock, dictGetD, habs]
    exact dictSet_absent stock s _ habs

/-- C5 witness: `c5_add_zero_value_noop` at `{"apple": 7}` with the
absent item `"pear"`. -/
theorem c5_add_zero_value_noop_witness :
    (add_item [("apple", PyNum.i 7)] (PyVal.str "pear") (PyVal.int 0) [] "t").ok = true
    ∧ ((get_qty (add_item [("apple", PyNum.i 7)] (PyVal.str "pear") (PyVal.int 0) [] "t").stock
        (PyVal.str "apple")).result).toRat
        = ((get_qty [("apple", PyNum.i 7)] (PyVal.str "apple")).result).toRat
    ∧ (add_item [("apple", PyNum.i 7)] (PyVal.str "pear") (PyVal.int 0) [] "t").stock
        = [("apple", PyNum.i 7), ("pear", PyNum.i 0)] :=
  ⟨(c5_add_zero_value_noop [("apple", PyNum.i 7)] "pear" [] "t" (by decide)).1,
   (c5_add_zero_value_noop [("apple", PyNum.i 7)] "pear" [] "t" (by decide)).2.1 "apple",
   (c5_add_zero_value_noop [("apple", PyNum.i 7)] "pear" [] "t" (by decide)).2.2 (by decide)⟩

/-- C4: `add_item` checks, in short-circuit order: item is a string, qty
is numeric, item is non-empty after stripping, qty ≥ 0.  On the first
failing check it returns failure with the specific error message and no
side effect on ledger or logs.  On success it returns success, sets the
item's entry to the previous quantity (default 0) plus qty, leaves every
other key unchanged, and appends exactly one log entry to the
caller-supplied log sink. -/
theorem c4_add_item_spec (stock : Ledger) (item qty : PyVal)
    (logs : List String) (now : String) :
    (isStrV item = false →
      add_item stock item qty logs now = ⟨false, stock, logs,
        Option.some ("Error: Item name must be a string, got " ++ typeName item)⟩)
    ∧ (isStrV item = true → isNumV qty = false →
      add_item stock item qty logs now = ⟨false, stock, logs,
        Option.some ("Error: Quantity must be a number, got " ++ typeName qty)⟩)
    ∧ (isStrV item = true → isNumV qty = true → strEmpty (strVal item) = true →
      add_item stock item qty logs now
        = ⟨false, stock, logs, Option.some "Error: Item name cannot be empty"⟩)
    ∧ (isStrV item = true → isNumV qty = true → strEmpty (strVal item) = false →
        (toNum qty).toRat < 0 →
      add_item stock item qty logs now = ⟨false, stock, logs,
        Option.some ("Error: Cannot add negative quantity (" ++ pyStr qty ++
          ") for item '" ++ strVal item ++ "'")⟩)
    ∧ (isStrV item = true → isNumV qty = true → strEmpty (strVal item) = false →
        0 ≤ (toNum qty).toRat →
      (add_item stock item qty logs now).ok = true
      ∧ dictGet (add_item stock item qty logs now).stock (strVal item)
          = Option.some (pyAdd (dictGetD stock (strVal item) (PyNum.i 0)) (toNum qty))
      ∧ (∀ k : String, k ≠ strVal item →
          dictGet (add_item stock item qty logs now).stock k = dictGet stock k)
      ∧ (add_item stock item qty logs now).logs
          = logs ++ [now ++ ": Added " ++ pyStr qty ++ " of " ++ strVal item]
      ∧ (add_item stock item qty logs now).msg = Option.none) := by
  refine ⟨fun h1 => ?_, fun h1 h2 => ?_, fun h1 h2 h3 => ?_, fun h1 h2 h3 h4 => ?_,
    fun h1 h2 h3 h4 => ?_⟩
  · simp [add_item, h1]
  · simp [add_item, h1, h2]
  · simp [add_item, h1, h2, h3]
  · simp [add_item, h1, h2, h3, h4]
  · have hs : add_item stock item qty logs now = ⟨true,
        dictSet stock (strVal item)
          (pyAdd (dictGetD stock (strVal item) (PyNum.i 0)) (toNum qty)),
        logs ++ [now ++ ": Added " ++ pyStr qty ++ " of " ++ strVal item],
        Option.none⟩ := by
      simp [add_item, h1, h2, h3, not_lt.mpr h4]
    rw [hs]
    exact ⟨rfl, dictGet_dictSet_self _ _ _,
      fun k hk => dictGet_dictSet_ne _ _ _ _ hk, rfl, rfl⟩

/-- C4 witness: `c4_add_item_spec` applied concretely — every failure
branch and the success branch of `add_item`, on the Ledger
`{"apple": 7}`. -/
theorem c4_add_item_spec_witness :
    add_item [("apple", PyNum.i 7)] (PyVal.int 123) (PyVal.str "ten") [] "t"
      = ⟨false, [("apple", PyNum.i 7)], [],
          Option.some "Error: Item name must be a string, got int"⟩
    ∧ add_item [("apple", PyNum.i 7)] (PyVal.str "pear") (PyVal.str "ten") [] "t"
      = ⟨false, [("apple", PyNum.i 7)], [],
          Option.some "Error: Quantity must be a number, got str"⟩
    ∧ add_item [("apple", PyNum.i 7)] (PyVal.str "  ") (PyVal.int 1) [] "t"
      = ⟨false, [("apple", PyNum.i 7)], [],
          Option.some "Error: Item name cannot be empty"⟩
    ∧ add_item [("apple", PyNum.i 7)] (PyVal.str "banana") (PyVal.int (-2)) [] "t"
      = ⟨false, [("apple", PyNum.i 7)], [],
          Option.some "Error: Cannot add negative quantity (-2) for item 'banana'"⟩
    ∧ (add_item [("apple", PyNum.i 7)] (PyVal.str "apple") (PyVal.int 10) [] "t").ok = true
    ∧ dictGet (add_item [("apple", PyNum.i 7)] (PyVal.str "apple") (PyVal.int 10) [] "t").stock
        "apple" = Option.some (PyNum.i 17) := by
  refine ⟨(c4_add_item_spec _ _ _ _ _).1 (by decide),
    (c4_add_item_spec _ _ _ _ _).2.1 (by decide) (by decide),
    (c4_add_item_spec _ _ _ _ _).2.2.1 (by decide) (by decide) (by decide),
    (c4_add_item_spec _ _ _ _ _).2.2.2.1 (by decide) (by decide) (by decide) (by decide),
    ((c4_add_item_spec [("apple", PyNum.i 7)] (PyVal.str "apple") (PyVal.int 10) [] "t"
      ).2.2.2.2 (by decide) (by decide) (by decide) (by decide)).1,
    ?_⟩
  have h := ((c4_add_item_spec [("apple", PyNum.i 7)] (PyVal.str "apple") (PyVal.int 10) [] "t"
      ).2.2.2.2 (by decide) (by decide) (by decide) (by decide)).2.1
  exact h.trans (by decide)

/-- C3: for every string item and numeric qty, `remove_item` succeeds iff
the item is non-empty after stripping, qty > 0, the item is present, and
the stored quantity is at least qty; on failure the ledger is unchanged;
on success the stored quantity becomes `old - qty`, except that when that
value is ≤ 0 the key is deleted, and every other key is unchanged.
(The Nodup hypothesis is the Python-dict guarantee that keys are unique.) -/
theorem c3_remove_item_spec (stock : Ledger) (s : String) (q : PyNum)
    (hnd : (stock.map Prod.fst).Nodup) :
    ((remove_item stock (PyVal.str s) (numToVal q)).ok = true ↔
      (strEmpty s = false ∧ 0 < q.toRat ∧
        ∃ v, dictGet stock s = Option.some v ∧ q.toRat ≤ v.toRat))
    ∧ ((remove_item stock (PyVal.str s) (numToVal q)).ok = false →
        (remove_item stock (PyVal.str s) (numToVal q)).stock = stock)
    ∧ (∀ v, dictGet stock s = Option.some v →
        (remove_item stock (PyVal.str s) (numToVal q)).ok = true →
        (dictGet (remove_item stock (PyVal.str s) (numToVal q)).stock s =
          (if v.toRat - q.toRat ≤ 0 then Option.none else Option.some (pySub v q)))
        ∧ (∀ k, k ≠ s → dictGet (remove_item stock (PyVal.str s) (numToVal q)).stock k
            = dictGet stock k)) := by
  by_cases h1 : strEmpty s = true
  · have hr : remove_item stock (PyVal.str s) (numToVal q)
        = ⟨false, stock, Option.some "Error: Item name cannot be empty"⟩ := by
      simp [remove_item, isStrV, isNumV_numToVal, strVal, h1]
    rw [hr]
    exact ⟨by simp [h1], fun _ => rfl, fun v hv hok => by simp at hok⟩
  · have h1' : strEmpty s = false := by simpa using h1
    by_cases h2 : q.toRat ≤ 0
    · have hr : remove_item stock (PyVal.str s) (numToVal q) = ⟨false, stock,
          Option.some ("Error: Quantity to remove must be positive, got "
            ++ pyStr (numToVal q))⟩ := by
        simp [remove_item, isStrV, isNumV_numToVal, strVal, toNum_numToVal, h1', h2]
      rw [hr]
      exact ⟨by simp [not_lt.mpr h2], fun _ => rfl, fun v hv hok => by simp at hok⟩
    · have h2' : 0 < q.toRat := not_le.mp h2
      cases hv : dictGet stock s with
      | none =>
          have hmem : dictMem stock s = false := by simp [dictMem, hv]
          have hr : remove_item stock (PyVal.str s) (numToVal q) = ⟨false, stock,
              Option.some ("Error: Item '" ++ s ++ "' not found in inventory")⟩ := by
            simp [remove_item, isStrV, isNumV_numToVal, strVal, toNum_numToVal, h1', h2, hmem]
          rw [hr]
          exact ⟨by simp, fun _ => rfl, fun v hv' hok => by simp at hv'⟩
      | some v =>
          have hmem : dictMem stock s = true := by simp [dictMem, hv]
          have hgetD : dictGetD stock s (PyNum.i 0) = v := by simp [dictGetD, hv]
          by_cases h3 : v.toRat < q.toRat
          · have hr : remove_item stock (PyVal.str s) (numToVal q) = ⟨false, stock,
                Option.some ("Error: Cannot remove " ++ pyStr (numToVal q) ++ " of '" ++ s
                  ++ "', only " ++ numStr v ++ " available")⟩ := by
              simp [remove_item, isStrV, isNumV_numToVal, strVal, toNum_numToVal, h1', h2,
                hmem, hgetD, h3]
            rw [hr]
            refine ⟨?_, fun _ => rfl, fun w hw hok => by simp at hok⟩
            simp only [Bool.false_eq_true, false_iff, not_and]
            intro _ _ hex
            obtain ⟨w, hw, hle⟩ := hex
            injection hw with hww
            subst hww
            exact absurd hle (not_le.mpr h3)
          · have h3' : q.toRat ≤ v.toRat := not_lt.mp h3
            by_cases h4 : (pySub v q).toRat ≤ 0
            · have hr : remove_item stock (PyVal.str s) (numToVal q)
                  = ⟨true, dictDel (dictSet stock s (pySub v q)) s, Option.none⟩ := by
                simp [remove_item, isStrV, isNumV_numToVal, strVal, toNum_numToVal, h1', h2,
                  hmem, hgetD, h3, h4]
              rw [hr]
              refine ⟨by simp [h1', h2', h3'], fun hfa => by simp at hfa,
                fun w hw hok => ?_⟩
              injection hw with hww
              subst hww
              constructor
              · rw [if_pos (by rw [← pySub_toRat]; exact h4)]
                rw [dictGet_dictDel_dictSet]
                exact dictGet_dictDel_self stock s hnd
              · intro k hk
                rw [dictGet_dictDel_ne _ _ _ hk, dictGet_dictSet_ne _ _ _ _ hk]
            · have hr : remove_item stock (PyVal.str s) (numToVal q)
                  = ⟨true, dictSet stock s (pySub v q), Option.none⟩ := by
                simp [remove_item, isStrV, isNumV_numToVal, strVal, toNum_numToVal, h1', h2,
                  hmem, hgetD, h3, h4]
              rw [hr]
              refine ⟨by simp [h1', h2', h3'], fun hfa => by simp at hfa,
                fun w hw hok => ?_⟩
              injection hw with hww
              subst hww
              constructor
              · rw [if_neg (by rw [← pySub_toRat]; exact h4)]
                exact dictGet_dictSet_self _ _ _
              · intro k hk
                exact dictGet_dictSet_ne _ _ _ _ hk

/-- C3 witness: `c3_remove_item_spec` applied on `{"apple": 10}`:
`remove("apple", 3)` succeeds and leaves 7; `remove("apple", 10)` deletes
the key; `remove("orange", 1)` fails leaving the ledger unchanged. -/
theorem c3_remove_item_spec_witness :
    (remove_item [("apple", PyNum.i 10)] (PyVal.str "apple") (numToVal (PyNum.i 3))).ok = true
    ∧ dictGet (remove_item [("apple", PyNum.i 10)] (PyVal.str "apple")
        (numToVal (PyNum.i 3))).stock "apple" = Option.some (PyNum.i 7)
    ∧ dictGet (remove_item [("apple", PyNum.i 10)] (PyVal.str "apple")
        (numToVal (PyNum.i 10))).stock "apple" = Option.none
    ∧ (remove_item [("apple", PyNum.i 10)] (PyVal.str "orange") (numToVal (PyNum.i 1))).ok = false
    ∧ (remove_item [("apple", PyNum.i 10)] (PyVal.str "orange") (numToVal (PyNum.i 1))).stock
        = [("apple", PyNum.i 10)] := by
  have t3 := c3_remove_item_spec [("apple", PyNum.i 10)] "apple" (PyNum.i 3) (by decide)
  have t10 := c3_remove_item_spec [("apple", PyNum.i 10)] "apple" (PyNum.i 10) (by decide)
  have tor := c3_remove_item_spec [("apple", PyNum.i 10)] "orange" (PyNum.i 1) (by decide)
  have hok3 : (remove_item [("apple", PyNum.i 10)] (PyVal.str "apple")
      (numToVal (PyNum.i 3))).ok = true := by
    rw [t3.1]
    exact ⟨by decide, by decide, PyNum.i 10, by decide, by decide⟩
  have hok10 : (remove_item [("apple", PyNum.i 10)] (PyVal.str "apple")
      (numToVal (PyNum.i 10))).ok = true := by
    rw [t10.1]
    exact ⟨by decide, by decide, PyNum.i 10, by decide, by decide⟩
  have hget3 := (t3.2.2 (PyNum.i 10) (by decide) hok3).1
  have hget10 := (t10.2.2 (PyNum.i 10) (by decide) hok10).1
  have hor : (remove_item [("apple", PyNum.i 10)] (PyVal.str "orange")
      (numToVal (PyNum.i 1))).ok = false := by
    cases hc : (remove_item [("apple", PyNum.i 10)] (PyVal.str "orange")
        (numToVal (PyNum.i 1))).ok
    · rfl
    · obtain ⟨-, -, w, hw, -⟩ := tor.1.mp hc
      simp [dictGet] at hw
  refine ⟨hok3, ?_, ?_, hor, tor.2.1 hor⟩
  · exact hget3.trans (by norm_num [PyNum.toRat, pySub, PyNum.toInt])
  · exact hget10.trans (by norm_num [PyNum.toRat])

/-- C2: `load_data` succeeds exactly when the path is a non-empty string,
the file reads and parses as a JSON object, and every value is a
non-negative number (object keys are strings by construction after JSON
parsing); on success the Ledger is replaced wholesale by the parsed
mapping; on any failure (bad path, missing file, permission denied,
malformed JSON, I/O error, schema violation) it returns failure and the
Ledger is completely unchanged. -/
theorem c2_load_data_spec (stock : Ledger) (fs : FS) (file : PyVal) :
    ((load_data stock fs file).ok = false → (load_data stock fs file).stock = stock)
    ∧ (∀ kvs, isStrV file = true → strEmpty (strVal file) = false →
        fs.read (strVal file) = FileData.parsed (PyData.dict kvs) →
        (∀ p ∈ kvs, isNumData p.2 = true ∧ 0 ≤ (dataToNum p.2).toRat) →
        load_data stock fs file = ⟨true, dataToLedger (PyData.dict kvs), Option.none⟩)
    ∧ ((load_data stock fs file).ok = true →
        ∃ kvs, isStrV file = true ∧ strEmpty (strVal file) = false ∧
          fs.read (strVal file) = FileData.parsed (PyData.dict kvs) ∧
          ∀ p ∈ kvs, isNumData p.2 = true ∧ 0 ≤ (dataToNum p.2).toRat) := by
  by_cases hstr : isStrV file = true
  · by_cases hemp : strEmpty (strVal file) = true
    · have hv : validate_load_data_inputs file = (false, "Error: File path cannot be empty") := by
        simp [validate_load_data_inputs, hstr, hemp]
      have hl : load_data stock fs file
          = ⟨false, stock, Option.some "Error: File path cannot be empty"⟩ := by
        unfold load_data; rw [hv]
      rw [hl]
      exact ⟨fun _ => rfl, fun kvs _ h2 => absurd hemp (by simp [h2]),
        fun h => by simp at h⟩
    · have hemp' : strEmpty (strVal file) = false := by simpa using hemp
      have hv : validate_load_data_inputs file = (true, "") := by
        simp [validate_load_data_inputs, hstr, hemp']
      cases hr : fs.read (strVal file) with
      | missing =>
          have hl : load_data stock fs file = ⟨false, stock,
              Option.some ("Error: File '" ++ strVal file ++ "' not found")⟩ := by
            unfold load_data; rw [hv, hr]
          rw [hl]
          exact ⟨fun _ => rfl, fun kvs _ _ h3 => by simp at h3,
            fun h => by simp at h⟩
      | permDenied =>
          have hl : load_data stock fs file = ⟨false, stock,
              Option.some ("Error: Permission denied accessing file '"
                ++ strVal file ++ "'")⟩ := by
            unfold load_data; rw [hv, hr]
          rw [hl]
          exact ⟨fun _ => rfl, fun kvs _ _ h3 => by simp at h3,
            fun h => by simp at h⟩
      | ioError e =>
          have hl : load_data stock fs file = ⟨false, stock,
              Option.some ("Error loading data from '" ++ strVal file ++ "': " ++ e)⟩ := by
            unfold load_data; rw [hv, hr]
          rw [hl]
          exact ⟨fun _ => rfl, fun kvs _ _ h3 => by simp at h3,
            fun h => by simp at h⟩
      | badJson e =>
          have hl : load_data stock fs file = ⟨false, stock,
              Option.some ("Error: Invalid JSON in file '" ++ strVal file ++ "': " ++ e)⟩ := by
            unfold load_data; rw [hv, hr]
          rw [hl]
          exact ⟨fun _ => rfl, fun kvs _ _ h3 => by simp at h3,
            fun h => by simp at h⟩
      | parsed d =>
          cases d with
          | dict kvs0 =>
              by_cases hval : (validateItems kvs0).1 = true
              · have hpair : validate_json_data (PyData.dict kvs0)
                    = (true, (validateItems kvs0).2) := by
                  show validateItems kvs0 = _
                  rw [← hval]
                have hl : load_data stock fs file
                    = ⟨true, dataToLedger (PyData.dict kvs0), Option.none⟩ := by
                  unfold load_data; rw [hv, hr]; simp only [hpair]
                rw [hl]
                refine ⟨fun h => by simp at h, fun kvs h1 h2 h3 h4 => ?_,
                  fun _ => ⟨kvs0, hstr, hemp', rfl, validateItems_true hval⟩⟩
                injection h3 with h3'
                injection h3' with h3''
                rw [h3'']
              · have hfalse : (validateItems kvs0).1 = false := by simpa using hval
                have hpair : validate_json_data (PyData.dict kvs0)
                    = (false, (validateItems kvs0).2) := by
                  show validateItems kvs0 = _
                  rw [← hfalse]
                have hl : load_data stock fs file
                    = ⟨false, stock, Option.some (validateItems kvs0).2⟩ := by
                  unfold load_data; rw [hv, hr]; simp only [hpair]
                rw [hl]
                refine ⟨fun _ => rfl, fun kvs h1 h2 h3 h4 => ?_, fun h => by simp at h⟩
                injection h3 with h3'
                injection h3' with h3''
                exact absurd ((validateItems_true_iff kvs0).mpr (h3'' ▸ h4))
                  (by simp [hfalse])
          | list xs =>
              have hl : load_data stock fs file = ⟨false, stock,
                  Option.some "Error: Invalid data format in file - expected dictionary"⟩ := by
                unfold load_data; rw [hv, hr]; rfl
              rw [hl]
              exact ⟨fun _ => rfl, fun kvs _ _ h3 => by simp at h3,
                fun h => by simp at h⟩
          | str s =>
              have hl : load_data stock fs file = ⟨false, stock,
                  Option.some "Error: Invalid data format in file - expected dictionary"⟩ := by
                unfold load_data; rw [hv, hr]; rfl
              rw [hl]
              exact ⟨fun _ => rfl, fun kvs _ _ h3 => by simp at h3,
                fun h => by simp at h⟩
          | int n =>
              have hl : load_data stock fs file = ⟨false, stock,
                  Option.some "Error: Invalid data format in file - expected dictionary"⟩ := by
                unfold load_data; rw [hv, hr]; rfl
              rw [hl]
              exact ⟨fun _ => rfl, fun kvs _ _ h3 => by simp at h3,
                fun h => by simp at h⟩
          | float q =>
              have hl : load_data stock fs file = ⟨false, stock,
                  Option.some "Error: Invalid data format in file - expected dictionary"⟩ := by
                unfold load_data; rw [hv, hr]; rfl
              rw [hl]
              exact ⟨fun _ => rfl, fun kvs _ _ h3 => by simp at h3,
                fun h => by simp at h⟩
          | bool b =>
              have hl : load_data stock fs file = ⟨false, stock,
                  Option.some "Error: Invalid data format in file - expected dictionary"⟩ := by
                unfold load_data; rw [hv, hr]; rfl
              rw [hl]
              exact ⟨fun _ => rfl, fun kvs _ _ h3 => by simp at h3,
                fun h => by simp at h⟩
          | null =>
              have hl : load_data stock fs file = ⟨false, stock,
                  Option.some "Error: Invalid data format in file - expected dictionary"⟩ := by
                unfold load_data; rw [hv, hr]; rfl
              rw [hl]
              exact ⟨fun _ => rfl, fun kvs _ _ h3 => by simp at h3,
                fun h => by simp at h⟩
  · have hstr' : isStrV file = false := by simpa using hstr
    have hv : validate_load_data_inputs file
        = (false, "Error: File path must be a string, got " ++ typeName file) := by
      simp [validate_load_data_inputs, hstr']
    have hl : load_data stock fs file = ⟨false, stock,
        Option.some ("Error: File path must be a string, got " ++ typeName file)⟩ := by
      unfold load_data; rw [hv]
    rw [hl]
    exact ⟨fun _ => rfl, fun kvs h1 => absurd h1 hstr, fun h => by simp at h⟩

/-- C2 witness: `c2_load_data_spec` applied concretely: loading a good
file replaces the Ledger wholesale, and loading a missing file fails and
leaves the Ledger `{"apple": 7}` unchanged. -/
theorem c2_load_data_spec_witness :
    load_data [("apple", PyNum.i 7)]
      ⟨fun _ => FileData.parsed (PyData.dict [("pear", PyData.int 3)]), fun _ => Option.none⟩
      (PyVal.str "inventory.json")
      = ⟨true, [("pear", PyNum.i 3)], Option.none⟩
    ∧ (load_data [("apple", PyNum.i 7)] fsEmpty (PyVal.str "missing.json")).stock
        = [("apple", PyNum.i 7)] := by
  constructor
  · have h := (c2_load_data_spec [("apple", PyNum.i 7)]
      ⟨fun _ => FileData.parsed (PyData.dict [("pear", PyData.int 3)]), fun _ => Option.none⟩
      (PyVal.str "inventory.json")).2.1 [("pear", PyData.int 3)]
      (by decide) (by decide) rfl
      (by intro p hp; simp at hp; rw [hp]; exact ⟨rfl, by decide⟩)
    exact h.trans (by rfl)
  · refine (c2_load_data_spec [("apple", PyNum.i 7)] fsEmpty (PyVal.str "missing.json")).1 ?_
    cases hc : (load_data [("apple", PyNum.i 7)] fsEmpty (PyVal.str "missing.json")).ok
    · rfl
    · obtain ⟨kvs, -, -, h3, -⟩ := (c2_load_data_spec [("apple", PyNum.i 7)] fsEmpty
        (PyVal.str "missing.json")).2.2 hc
      exact absurd h3 (by simp [fsEmpty])

/-- C6: for every Ledger state satisfying the data-model invariant
(non-negative quantities) and every writable non-empty path,
`save_data(path)` succeeds and a subsequent `load_data(path)` (from any
intermediate ledger) succeeds and reproduces exactly the saved Ledger:
same keys with the same quantities. -/
theorem c6_save_load_roundtrip (stock stock2 : Ledger) (fs : FS) (p : String)
    (hs : strEmpty p = false) (hw : fs.writeErr p = Option.none)
    (hnn : LedgerNN stock) :
    (save_data stock fs (PyVal.str p)).ok = true
    ∧ load_data stock2 (save_data stock fs (PyVal.str p)).fs (PyVal.str p)
        = ⟨true, stock, Option.none⟩ := by
  have hsave : save_data stock fs (PyVal.str p) = ⟨true,
      { fs with read := fun q =>
          if q == p then FileData.parsed (serializeLedger stock) else fs.read q },
      Option.none⟩ := by
    simp only [save_data, isStrV, Bool.not_true, Bool.false_eq_true, if_false, strVal, hs]
    rw [hw]
  refine ⟨by rw [hsave], ?_⟩
  rw [hsave]
  have hv : validate_load_data_inputs (PyVal.str p) = (true, "") := by
    simp [validate_load_data_inputs, isStrV, strVal, hs]
  have hread : (FS.mk (fun q =>
      if q == p then FileData.parsed (serializeLedger stock) else fs.read q)
      fs.writeErr).read (strVal (PyVal.str p)) = FileData.parsed (serializeLedger stock) := by
    simp [strVal]
  have hval : (validateItems (stock.map fun q => (q.1, numToData q.2))).1 = true := by
    rw [validateItems_true_iff]
    intro pr hpr
    simp only [List.mem_map] at hpr
    obtain ⟨entry, hentry, rfl⟩ := hpr
    exact ⟨isNumData_numToData _, by rw [dataToNum_numToData]; exact hnn _ hentry⟩
  have hpair : validate_json_data (serializeLedger stock)
      = (true, (validateItems (stock.map fun q => (q.1, numToData q.2))).2) := by
    show validateItems _ = _
    rw [← hval]
  unfold load_data
  rw [hv]
  simp only [hread, strVal, beq_self_eq_true, if_true, hpair, dataToLedger_serializeLedger]

/-- C6 witness: `c6_save_load_roundtrip` on the Ledger
`{"apple": 7, "banana": 2}` with path `"inventory.json"` over an empty
writable file system. -/
theorem c6_save_load_roundtrip_witness :
    (save_data [("apple", PyNum.i 7), ("banana", PyNum.i 2)] fsEmpty
      (PyVal.str "inventory.json")).ok = true
    ∧ load_data [] (save_data [("apple", PyNum.i 7), ("banana", PyNum.i 2)] fsEmpty
        (PyVal.str "inventory.json")).fs (PyVal.str "inventory.json")
      = ⟨true, [("apple", PyNum.i 7), ("banana", PyNum.i 2)], Option.none⟩ :=
  c6_save_load_roundtrip [("apple", PyNum.i 7), ("banana", PyNum.i 2)] [] fsEmpty
    "inventory.json" (by decide) rfl (by decide)

/-- C10: Python booleans count as numbers (`bool` is a subclass of
`int`), so `True` passes every numeric-quantity check: `add` and `remove`
with qty `True` behave exactly as with qty `1` on the ledger (only the
printed message text differs), a JSON object whose values are booleans
passes load validation, and a successful load installs the booleans as
stored quantities. -/
theorem c10_bool_quantities (stock : Ledger) (item : PyVal) (logs : List String)
    (now : String) (s : String) (bvals : List (String × Bool)) :
    isNumV (PyVal.bool true) = true
    ∧ (add_item stock item (PyVal.bool true) logs now).ok
        = (add_item stock item (PyVal.int 1) logs now).ok
    ∧ (add_item stock item (PyVal.bool true) logs now).stock
        = (add_item stock item (PyVal.int 1) logs now).stock
    ∧ (remove_item stock item (PyVal.bool true)).ok
        = (remove_item stock item (PyVal.int 1)).ok
    ∧ (remove_item stock item (PyVal.bool true)).stock
        = (remove_item stock item (PyVal.int 1)).stock
    ∧ (strEmpty s = false →
        (add_item stock (PyVal.str s) (PyVal.bool true) logs now).ok = true)
    ∧ (validateItems (bvals.map (fun p => (p.1, PyData.bool p.2)))).1 = true
    ∧ load_data stock ⟨fun _ => FileData.parsed (PyData.dict [("flag", PyData.bool true)]),
        fun _ => Option.none⟩ (PyVal.str "flag.json")
        = ⟨true, [("flag", PyNum.b true)], Option.none⟩
    ∧ (remove_item [("a", PyNum.i 5)] (PyVal.str "a") (PyVal.bool true)).stock
        = [("a", PyNum.i 4)] := by
  have et : (toNum (PyVal.bool true)) = PyNum.b true := rfl
  have eo : (toNum (PyVal.int 1)) = PyNum.i 1 := rfl
  have rt : (PyNum.b true).toRat = 1 := by norm_num [PyNum.toRat]
  have ro : (PyNum.i 1).toRat = 1 := by norm_num [PyNum.toRat]
  refine ⟨rfl, ?_, ?_, ?_, ?_, ?_, ?_, ?_, ?_⟩
  · simp only [add_item, isNumV, et, eo, rt, ro, pyAdd_bool_true]
    split_ifs <;> rfl
  · simp only [add_item, isNumV, et, eo, rt, ro, pyAdd_bool_true]
    split_ifs <;> rfl
  · simp only [remove_item, isNumV, et, eo, rt, ro, pySub_bool_true]
    split_ifs <;> rfl
  · simp only [remove_item, isNumV, et, eo, rt, ro, pySub_bool_true]
    split_ifs <;> rfl
  · intro hsv
    simp only [add_item, isStrV, Bool.not_true, Bool.false_eq_true, if_false, isNumV,
      strVal, hsv, et, rt]
    rw [if_neg (by norm_num)]
  · induction bvals with
    | nil => rfl
    | cons pr rest ih =>
        have harm : (!(isNumData (PyData.bool pr.2))
            || decide ((dataToNum (PyData.bool pr.2)).toRat < 0)) = false := by
          cases hb : pr.2 <;>
            simp [isNumData, dataToNum, PyNum.toRat]
        simp only [List.map_cons, validateItems]
        rw [if_neg (by simp [harm])]
        exact ih
  · rfl
  · decide

/-- C10 witness: `c10_bool_quantities` applied concretely:
`add("flag", True)` on the empty ledger succeeds and stores the same
ledger as `add("flag", 1)`. -/
theorem c10_bool_quantities_witness :
    (add_item [] (PyVal.str "flag") (PyVal.bool true) [] "t").ok = true
    ∧ (add_item [] (PyVal.str "flag") (PyVal.bool true) [] "t").stock
        = (add_item [] (PyVal.str "flag") (PyVal.int 1) [] "t").stock :=
  ⟨(c10_bool_quantities [] (PyVal.str "flag") [] "t" "flag" []).2.2.2.2.2.1 (by decide),
   (c10_bool_quantities [] (PyVal.str "flag") [] "t" "flag" []).2.2.1⟩
